import Mathlib

/-!
Verification development for the Helios server-side session layer
(`@helios-starling/helios`): a shallow embedding of the state-recovery
subsystem (`StatesManager`), the per-peer generation lock, the peer
lifecycle (`Starling.link` / `unlink` / `close`), the connection registry
(`StarlingsManager`) and the proxy routing engine (`ProxyManager`),
together with theorems about their behaviour.
-/

namespace Helios

/-- JS `a || b` for an optional numeric option: both `undefined` and `0` are
falsy, so `0` also falls back to the default. -/
def jsOr (a : Option Nat) (b : Nat) : Nat :=
  match a with
  | none => b
  | some n => if n = 0 then b else n

/-- Model of `Map.get`: association-list lookup, first binding wins. -/
def lookupA {κ α : Type} [DecidableEq κ] : List (κ × α) → κ → Option α
  | [], _ => none
  | (k', v) :: rest, k => if k' = k then some v else lookupA rest k

/-- Model of `Map.delete`: remove every binding of the key. -/
def eraseA {κ α : Type} [DecidableEq κ] : List (κ × α) → κ → List (κ × α)
  | [], _ => []
  | (k', v) :: rest, k =>
      if k' = k then eraseA rest k else (k', v) :: eraseA rest k

/-- Model of `Map.set`: replace any existing binding of the key. -/
def setA {κ α : Type} [DecidableEq κ] (l : List (κ × α)) (k : κ) (v : α) :
    List (κ × α) :=
  eraseA l k ++ [(k, v)]

theorem lookupA_eraseA {κ α : Type} [DecidableEq κ]
    (l : List (κ × α)) (k : κ) : lookupA (eraseA l k) k = none := by
  induction l with
  | nil => rfl
  | cons hd tl ih =>
    obtain ⟨k', v⟩ := hd
    by_cases h : k' = k
    · simp [eraseA, h, ih]
    · simp [eraseA, h, lookupA, ih]

theorem lookupA_setA {κ α : Type} [DecidableEq κ]
    (l : List (κ × α)) (k : κ) (v : α) : lookupA (setA l k v) k = some v := by
  induction l with
  | nil => simp [setA, eraseA, lookupA]
  | cons hd tl ih =>
    obtain ⟨k', v'⟩ := hd
    by_cases h : k' = k
    · simpa [setA, eraseA, h] using ih
    · simpa [setA, eraseA, h, lookupA] using ih

theorem lookupA_none_not_mem {κ α : Type} [DecidableEq κ]
    (l : List (κ × α)) (k : κ) (h : lookupA l k = none) :
    k ∉ l.map Prod.fst := by
  induction l with
  | nil => simp
  | cons hd tl ih =>
    obtain ⟨k', v⟩ := hd
    by_cases hk : k' = k
    · simp [lookupA, hk] at h
    · simp only [lookupA, hk, if_false] at h
      simp [Ne.symm hk, ih h]

/-! ## State-Recovery Subsystem (`StatesManager`, src/managers/states.js)

Snapshot values are abstracted to strings; each provider is embedded by the
outcome of the one `save()` call made during a generation and the outcome of
`restore(v)` per value. -/

/-- Abstract snapshot value held in a state namespace. -/
abbrev SVal := String

/-- A registered state provider as stored in `StatesManager._providers`:
the outcome of its `save()` call, the outcome of `restore(v)` for each
value, and the optional `validate` predicate bound at registration. -/
structure SProvider where
  save : Except String SVal
  restoreOutcome : SVal → Except String Unit
  validate : Option (SVal → Bool)

/-- Registration options as stored in `StatesManager._options`
(`required` defaults to `false`, `defaultState` to `null`). -/
structure SOptions where
  required : Bool
  defaultState : Option SVal
deriving Repr, DecidableEq

/-- Events emitted by the state subsystem. -/
inductive SEvent
  | saveFailed (ns msg : String)        -- 'state:save:failed'
  | restored (ns : String)              -- 'starling:state:restored'
  | restoreFailed (ns msg : String)     -- 'starling:state:restore:failed'
  | restoreErrored (msg : String)       -- 'state:restore:failed' (outer catch)
deriving Repr, DecidableEq

/-- The per-peer `StatesManager`: owner id plus the `_providers` and
`_options` maps (key-aligned by `register`, which writes both). -/
structure StatesMgr where
  ownerId : String
  providers : List (String × SProvider)
  opts : List (String × SOptions)

/-- Reading `this._options.get(ns).required` as `generateToken` and `restore` read
it (`register` keeps `_providers` and `_options` key-aligned, so the `none`
default is unreachable for registered namespaces). -/
def requiredOf (opts : List (String × SOptions)) (ns : String) : Bool :=
  match lookupA opts ns with
  | some o => o.required
  | none => false

/-- The save-gathering loop of `generateToken`: every provider's `save()` is
launched and `Promise.all` awaits them all. A successful save lands in the
`states` map, a failed save of a required namespace appends an error message
to `errors`, and a failed save of a non-required namespace emits a
`state:save:failed` event and is simply omitted. (The in-code guard
`currentGenerationId === generationId` around the `states` write always holds
while the generation lock is held; see the lock model below.) -/
def gatherStates (opts : List (String × SOptions)) :
    List (String × SProvider) → List (String × SVal) × List String × List SEvent
  | [] => ([], [], [])
  | (ns, p) :: rest =>
    let r := gatherStates opts rest
    match p.save with
    | .ok v => ((ns, v) :: r.1, r.2.1, r.2.2)
    | .error e =>
      if requiredOf opts ns then
        (r.1, ("Failed to save required state " ++ ns ++ ": " ++ e) :: r.2.1, r.2.2)
      else
        (r.1, r.2.1, SEvent.saveFailed ns e :: r.2.2)

/-- The claims object signed into a recovery token: peer id, the gathered
namespace snapshots, and the issuance timestamp. -/
structure TokenPayload where
  starlingId : String
  states : List (String × SVal)
  timestamp : Nat
deriving Repr, DecidableEq

/-- One complete `generateToken` attempt, after the generation lock has been
acquired (signing is abstracted as total; the payload is what `SignJWT`
signs). Fails with the aggregated message when any required save failed. -/
def generateTokenOutcome (m : StatesMgr) (ts : Nat) :
    Except String TokenPayload × List SEvent :=
  let r := gatherStates m.opts m.providers
  if r.2.1 ≠ [] then
    (.error ("State token generation failed: " ++ String.intercalate ", " r.2.1),
     r.2.2)
  else
    (.ok ⟨m.ownerId, r.1, ts⟩, r.2.2)

/-- The required-save failure messages, in provider order. -/
def requiredFailMsgs (opts : List (String × SOptions))
    (ps : List (String × SProvider)) : List String :=
  ps.filterMap fun q =>
    match q.2.save with
    | .error e =>
        if requiredOf opts q.1 then
          some ("Failed to save required state " ++ q.1 ++ ": " ++ e)
        else none
    | .ok _ => none

/-- The namespaces whose save succeeded, with their snapshots, in order. -/
def savedPairs (ps : List (String × SProvider)) : List (String × SVal) :=
  ps.filterMap fun q =>
    match q.2.save with
    | .ok v => some (q.1, v)
    | .error _ => none

/-- The `state:save:failed` events of the non-required failures, in order. -/
def nonReqFailEvents (opts : List (String × SOptions))
    (ps : List (String × SProvider)) : List SEvent :=
  ps.filterMap fun q =>
    match q.2.save with
    | .error e => if requiredOf opts q.1 then none else some (.saveFailed q.1 e)
    | .ok _ => none

theorem gatherStates_eq (opts : List (String × SOptions))
    (ps : List (String × SProvider)) :
    gatherStates opts ps =
      (savedPairs ps, requiredFailMsgs opts ps, nonReqFailEvents opts ps) := by
  induction ps with
  | nil => rfl
  | cons hd tl ih =>
    obtain ⟨ns, p⟩ := hd
    cases hs : p.save with
    | ok v =>
      simp [gatherStates, savedPairs, requiredFailMsgs, nonReqFailEvents, hs, ih,
        List.filterMap_cons]
    | error e =>
      by_cases hr : requiredOf opts ns
      · simp [gatherStates, savedPairs, requiredFailMsgs, nonReqFailEvents, hs,
          hr, ih, List.filterMap_cons]
      · simp [gatherStates, savedPairs, requiredFailMsgs, nonReqFailEvents, hs,
          hr, ih, List.filterMap_cons]

/-! ### `StatesManager.restore` -/

/-- Accumulated effects of a `restore` run: every provider `restore`
invocation actually made (`calls`), the `restoredStates` set in insertion
order (`applied`), the emitted events, and the collected error messages. -/
structure RestoreOut where
  calls : List (String × SVal)
  applied : List String
  events : List SEvent
  errors : List String
deriving Repr, DecidableEq

/-- Concatenation of two effect records, earlier effects first. -/
def RestoreOut.app (a b : RestoreOut) : RestoreOut :=
  ⟨a.calls ++ b.calls, a.applied ++ b.applied, a.events ++ b.events,
   a.errors ++ b.errors⟩

/-- One namespace of the token-driven restore loop: run `validate` when
present (a validation failure raises before `restore` is ever called), then
the provider's `restore`. A failure becomes a collected error when the
namespace is required (`options?.required`) and a
`starling:state:restore:failed` event otherwise. -/
def restoreOne (m : StatesMgr) (ns : String) (v : SVal) (p : SProvider) :
    RestoreOut :=
  let fail : String → RestoreOut := fun msg =>
    if requiredOf m.opts ns then
      ⟨[], [], [], ["Failed to restore required state " ++ ns ++ ": " ++ msg]⟩
    else
      ⟨[], [], [SEvent.restoreFailed ns msg], []⟩
  let runRestore : RestoreOut :=
    match p.restoreOutcome v with
    | .ok _ => ⟨[(ns, v)], [ns], [SEvent.restored ns], []⟩
    | .error e => { fail e with calls := [(ns, v)] }
  match p.validate with
  | some f => if f v then runRestore else fail "State validation failed"
  | none => runRestore

/-- The first `restore` loop, over the namespaces present in the token:
namespaces without a registered provider are skipped (`continue`). -/
def restoreFromToken (m : StatesMgr) :
    List (String × SVal) → RestoreOut
  | [] => ⟨[], [], [], []⟩
  | (ns, v) :: rest =>
    match lookupA m.providers ns with
    | none => restoreFromToken m rest
    | some p => (restoreOne m ns v p).app (restoreFromToken m rest)

/-- The second `restore` loop, over `_options`: a required namespace not yet
restored is filled from `defaultState` when one is supplied (a failure there
is collected) and otherwise collected as a missing-state error. `restored`
threads the `restoredStates` set. (The no-provider default branch cannot
arise for namespaces registered through `register`, which keeps both maps
key-aligned.) -/
def restoreDefaults (m : StatesMgr) (restored : List String) :
    List (String × SOptions) → RestoreOut
  | [] => ⟨[], [], [], []⟩
  | (ns, o) :: rest =>
    if o.required && !(restored.contains ns) then
      match o.defaultState with
      | some d =>
        let head : RestoreOut :=
          match lookupA m.providers ns with
          | some p =>
            match p.restoreOutcome d with
            | .ok _ => ⟨[(ns, d)], [ns], [], []⟩
            | .error e =>
                ⟨[(ns, d)], [], [],
                 ["Failed to restore default state for " ++ ns ++ ": " ++ e]⟩
          | none =>
              ⟨[], [], [],
               ["Failed to restore default state for " ++ ns ++ ": no provider"]⟩
        head.app (restoreDefaults m (restored ++ head.applied) rest)
      | none =>
        (⟨[], [], [], ["Required state " ++ ns ++ " missing from token"]⟩ :
            RestoreOut).app (restoreDefaults m restored rest)
    else restoreDefaults m restored rest

/-- Model of `StatesManager.restore`, given the outcome of `jwtVerify` on the
presented token: verification failure and an embedded-id mismatch abort
before any provider is touched; otherwise both loops run, and any collected
error makes the whole call fail with the joined message (the outer catch
emits `state:restore:failed` and rethrows on every failure path). -/
def restoreRun (m : StatesMgr) (verified : Except String TokenPayload) :
    RestoreOut × Except String Unit :=
  match verified with
  | .error e => (⟨[], [], [SEvent.restoreErrored e], []⟩, .error e)
  | .ok p =>
    if p.starlingId ≠ m.ownerId then
      (⟨[], [], [SEvent.restoreErrored "Token starling ID mismatch"], []⟩,
       .error "Token starling ID mismatch")
    else
      let r1 := restoreFromToken m p.states
      let r := r1.app (restoreDefaults m r1.applied m.opts)
      if r.errors ≠ [] then
        ({ r with events :=
            r.events ++ [SEvent.restoreErrored (String.intercalate ", " r.errors)] },
         .error (String.intercalate ", " r.errors))
      else (r, .ok ())

theorem containsFalseIff {α : Type} [BEq α] [LawfulBEq α] (l : List α) (a : α) :
    l.contains a = false ↔ a ∉ l := by
  rw [show l.contains a = l.elem a from rfl]
  constructor
  · intro h hm
    rw [List.elem_eq_true_of_mem hm] at h
    simp at h
  · intro h
    by_contra hb
    simp only [Bool.not_eq_false] at hb
    exact h (List.mem_of_elem_eq_true hb)

theorem restoreOne_applied_eq (m : StatesMgr) (ns : String) (v : SVal)
    (p : SProvider) :
    (restoreOne m ns v p).applied = [] ∨ (restoreOne m ns v p).applied = [ns] := by
  unfold restoreOne
  cases hv : p.validate with
  | none =>
    cases hr : p.restoreOutcome v <;> by_cases hq : requiredOf m.opts ns <;>
      simp [hr, hq]
  | some f =>
    by_cases hf : f v
    · cases hr : p.restoreOutcome v <;> by_cases hq : requiredOf m.opts ns <;>
        simp [hf, hr, hq]
    · by_cases hq : requiredOf m.opts ns <;> simp [hf, hq]

theorem restoreFromToken_applied_mem (m : StatesMgr)
    (st : List (String × SVal)) :
    ∀ x ∈ (restoreFromToken m st).applied, x ∈ st.map Prod.fst := by
  induction st with
  | nil => simp [restoreFromToken]
  | cons hd tl ih =>
    obtain ⟨ns, v⟩ := hd
    intro x hx
    cases hp : lookupA m.providers ns with
    | none =>
      simp only [restoreFromToken, hp] at hx
      exact List.mem_cons_of_mem _ (ih x hx)
    | some p =>
      simp only [restoreFromToken, hp, RestoreOut.app, List.mem_append] at hx
      rcases hx with hx | hx
      · rcases restoreOne_applied_eq m ns v p with he | he
        · rw [he] at hx; simp at hx
        · rw [he] at hx
          simp only [List.mem_singleton] at hx
          simp [hx]
      · exact List.mem_cons_of_mem _ (ih x hx)

theorem restoreDefaults_missing_mem (m : StatesMgr) (ns : String)
    (o : SOptions) :
    ∀ (l : List (String × SOptions)) (restored : List String),
      (ns, o) ∈ l → (l.map Prod.fst).Nodup → restored.contains ns = false →
      o.required = true → o.defaultState = none →
      ("Required state " ++ ns ++ " missing from token") ∈
        (restoreDefaults m restored l).errors := by
  intro l
  induction l with
  | nil => simp
  | cons hd tl ih =>
    obtain ⟨k, o'⟩ := hd
    intro restored hmem hnd hni hreq hdef
    rcases List.mem_cons.mp hmem with heq | htl
    · have h1 : ns = k := congrArg Prod.fst heq
      have h2 : o = o' := congrArg Prod.snd heq
      subst h1
      subst h2
      have hnm : ns ∉ restored := (containsFalseIff restored ns).mp hni
      simp [restoreDefaults, hdef, RestoreOut.app, hreq, hnm]
    · have hk : k ∉ tl.map Prod.fst := by
        simpa using (List.nodup_cons.mp hnd).1
      have hkne : k ≠ ns := by
        intro h
        exact hk (h ▸ List.mem_map.mpr ⟨(ns, o), htl, rfl⟩)
      have hndtl : (tl.map Prod.fst).Nodup := (List.nodup_cons.mp hnd).2
      by_cases hcond : (o'.required && !(restored.contains k)) = true
      · simp only [restoreDefaults, hcond, if_true]
        cases hds : o'.defaultState with
        | none =>
          have := ih restored htl hndtl hni hreq hdef
          simp [RestoreOut.app, this]
        | some d =>
          cases hp : lookupA m.providers k with
          | none =>
            have := ih restored htl hndtl hni hreq hdef
            simp [hp, RestoreOut.app, this]
          | some p =>
            cases hr : p.restoreOutcome d with
            | ok u =>
              have hni' : (restored ++ [k]).contains ns = false := by
                rw [containsFalseIff] at hni ⊢
                intro hm
                rcases List.mem_append.mp hm with hm | hm
                · exact hni hm
                · simp only [List.mem_singleton] at hm
                  exact hkne hm.symm
              have := ih (restored ++ [k]) htl hndtl hni' hreq hdef
              simp [hp, hr, RestoreOut.app, this]
            | error e =>
              have := ih restored htl hndtl hni hreq hdef
              simp [hp, hr, RestoreOut.app, this]
      · have hcond' : (o'.required && !(restored.contains k)) = false := by
          simpa using hcond
        simp only [restoreDefaults, hcond', if_false]
        exact ih restored htl hndtl hni hreq hdef

/-! ## The per-peer generation lock of `generateToken`

`generateToken` serialises snapshot generation per peer with a promise
lock: a caller spins in `while (this._stateGenerationLock) await ...`,
then installs its own lock promise and records its generation id in
`_currentGenerationId`; the `finally` block clears both fields (guarded
by `currentGenerationId === generationId`) and resolves the promise,
releasing every waiter to re-check the loop condition.

The asynchronous executions of concurrent `generateToken` calls for one
peer are embedded as a small-step transition system: each call is a task
identified by its generation id, atomic between suspension points as in
the single-threaded JS runtime. `gathering` is the critical section
(the provider-save batch up to signing), `waiting j` is suspension on
generation `j`'s lock promise, and a task resumes from `waiting j` only
after `j`'s `finally` has resolved that promise (`pcs j = done`). -/

/-- Program counter of one `generateToken` task. -/
inductive GenPc
  | start
  | waiting (j : Nat)
  | gathering
  | done
deriving Repr, DecidableEq

/-- Pointwise update of a task-indexed program-counter map. -/
def updPc (f : Nat → GenPc) (i : Nat) (v : GenPc) : Nat → GenPc :=
  fun j => if j = i then v else f j

/-- Shared per-peer state (`_stateGenerationLock` as the id of the
generation whose promise is installed, `_currentGenerationId`) together
with every task's program counter. -/
structure GenState where
  lock : Option Nat
  current : Option Nat
  pcs : Nat → GenPc

/-- One atomic step of the lock protocol, as the JS runtime executes it:
the lock-free check-and-install runs without an intervening `await`, the
`finally` block clears the fields (only when this generation is still the
current one, exactly as written) and resolves the lock promise, and a
released waiter re-checks the loop condition atomically. -/
inductive GenStep : GenState → GenState → Prop
  | acquire (s : GenState) (i : Nat) :
      s.pcs i = GenPc.start → s.lock = none →
      GenStep s ⟨some i, some i, updPc s.pcs i GenPc.gathering⟩
  | waitOn (s : GenState) (i j : Nat) :
      s.pcs i = GenPc.start → s.lock = some j →
      GenStep s ⟨s.lock, s.current, updPc s.pcs i (GenPc.waiting j)⟩
  | finish (s : GenState) (i : Nat) :
      s.pcs i = GenPc.gathering →
      GenStep s ⟨if s.current = some i then none else s.lock,
                 if s.current = some i then none else s.current,
                 updPc s.pcs i GenPc.done⟩
  | reacquire (s : GenState) (i j : Nat) :
      s.pcs i = GenPc.waiting j → s.pcs j = GenPc.done → s.lock = none →
      GenStep s ⟨some i, some i, updPc s.pcs i GenPc.gathering⟩
  | rewait (s : GenState) (i j k : Nat) :
      s.pcs i = GenPc.waiting j → s.pcs j = GenPc.done → s.lock = some k →
      GenStep s ⟨s.lock, s.current, updPc s.pcs i (GenPc.waiting k)⟩

/-- Fresh per-peer state: no lock installed, no generation current, every
potential call still at its start. -/
def genInit : GenState := ⟨none, none, fun _ => GenPc.start⟩

/-- States reachable by any interleaving of `generateToken` calls. -/
inductive GenReach : GenState → Prop
  | init : GenReach genInit
  | step {s t : GenState} : GenReach s → GenStep s t → GenReach t

/-- Protocol invariant: the lock names exactly the generation in its
critical section, the generation id is cleared together with the lock, and
a waiter only ever waits on a generation that is gathering or finished. -/
def GenInv (s : GenState) : Prop :=
  (∀ i, s.lock = some i → s.current = some i ∧ s.pcs i = GenPc.gathering) ∧
  (s.lock = none → s.current = none) ∧
  (∀ i, s.pcs i = GenPc.gathering → s.lock = some i) ∧
  (∀ i j, s.pcs i = GenPc.waiting j →
    s.pcs j = GenPc.gathering ∨ s.pcs j = GenPc.done)

theorem genInv_init : GenInv genInit := by
  refine ⟨?_, ?_, ?_, ?_⟩ <;> simp [genInit]

theorem genInv_step {s t : GenState} (hI : GenInv s) (hs : GenStep s t) :
    GenInv t := by
  obtain ⟨A, B, C, D⟩ := hI
  cases hs with
  | acquire i h1 h2 =>
    refine ⟨?_, ?_, ?_, ?_⟩
    · intro m hm
      simp only [Option.some.injEq] at hm
      subst hm
      exact ⟨rfl, by simp [updPc]⟩
    · intro h; simp at h
    · intro m hm
      by_cases hmi : m = i
      · simp [hmi]
      · simp only [updPc, hmi, if_false] at hm
        exact absurd (C m hm) (by simp [h2])
    · intro m n hmn
      by_cases hmi : m = i
      · simp [updPc, hmi] at hmn
      · simp only [updPc, hmi, if_false] at hmn
        have := D m n hmn
        have hni : n ≠ i := by
          intro h; subst h
          rcases this with h | h <;> rw [h1] at h <;> simp at h
        simpa [updPc, hni] using this
  | waitOn i j h1 h2 =>
    obtain ⟨hc, hg⟩ := A j h2
    have hij : i ≠ j := by
      intro h; subst h; rw [h1] at hg; simp at hg
    refine ⟨?_, ?_, ?_, ?_⟩
    · intro m hm
      rw [h2] at hm
      simp only [Option.some.injEq] at hm
      subst hm
      refine ⟨hc, ?_⟩
      simp [updPc, Ne.symm hij, hg]
    · intro h; rw [h2] at h; simp at h
    · intro m hm
      by_cases hmi : m = i
      · simp [updPc, hmi] at hm
      · simp only [updPc, hmi, if_false] at hm
        exact C m hm
    · intro m n hmn
      by_cases hmi : m = i
      · simp only [updPc, hmi, if_true, GenPc.waiting.injEq] at hmn
        subst hmn
        left
        simp [updPc, Ne.symm hij, hg]
      · simp only [updPc, hmi, if_false] at hmn
        have := D m n hmn
        have hni : n ≠ i := by
          intro h; subst h
          rcases this with h | h <;> rw [h1] at h <;> simp at h
        simpa [updPc, hni] using this
  | finish i h1 =>
    have hlock : s.lock = some i := C i h1
    have hcur : s.current = some i := (A i hlock).1
    refine ⟨?_, ?_, ?_, ?_⟩
    · intro m hm
      simp [hcur] at hm
    · intro _
      simp [hcur]
    · intro m hm
      by_cases hmi : m = i
      · simp [updPc, hmi] at hm
      · simp only [updPc, hmi, if_false] at hm
        have := C m hm
        rw [hlock] at this
        simp only [Option.some.injEq] at this
        exact absurd this.symm hmi
    · intro m n hmn
      by_cases hmi : m = i
      · simp [updPc, hmi] at hmn
      · simp only [updPc, hmi, if_false] at hmn
        have := D m n hmn
        by_cases hni : n = i
        · subst hni
          right
          simp [updPc]
        · simpa [updPc, hni] using this
  | reacquire i j h1 h2 h3 =>
    refine ⟨?_, ?_, ?_, ?_⟩
    · intro m hm
      simp only [Option.some.injEq] at hm
      subst hm
      exact ⟨rfl, by simp [updPc]⟩
    · intro h; simp at h
    · intro m hm
      by_cases hmi : m = i
      · simp [hmi]
      · simp only [updPc, hmi, if_false] at hm
        exact absurd (C m hm) (by simp [h3])
    · intro m n hmn
      by_cases hmi : m = i
      · simp [updPc, hmi] at hmn
      · simp only [updPc, hmi, if_false] at hmn
        have := D m n hmn
        have hni : n ≠ i := by
          intro h; subst h
          rcases this with h | h <;> rw [h1] at h <;> simp at h
        simpa [updPc, hni] using this
  | rewait i j k h1 h2 h3 =>
    obtain ⟨hc, hg⟩ := A k h3
    have hik : i ≠ k := by
      intro h; subst h; rw [h1] at hg; simp at hg
    refine ⟨?_, ?_, ?_, ?_⟩
    · intro m hm
      rw [h3] at hm
      simp only [Option.some.injEq] at hm
      subst hm
      refine ⟨hc, ?_⟩
      simp [updPc, Ne.symm hik, hg]
    · intro h; rw [h3] at h; simp at h
    · intro m hm
      by_cases hmi : m = i
      · simp [updPc, hmi] at hm
      · simp only [updPc, hmi, if_false] at hm
        exact C m hm
    · intro m n hmn
      by_cases hmi : m = i
      · simp only [updPc, hmi, if_true, GenPc.waiting.injEq] at hmn
        subst hmn
        left
        simp [updPc, Ne.symm hik, hg]
      · simp only [updPc, hmi, if_false] at hmn
        have := D m n hmn
        have hni : n ≠ i := by
          intro h; subst h
          rcases this with h | h <;> rw [h1] at h <;> simp at h
        simpa [updPc, hni] using this

theorem genInv_reach {s : GenState} (h : GenReach s) : GenInv s := by
  induction h with
  | init => exact genInv_init
  | step _ hstep ih => exact genInv_step ih hstep

/-- C1: for every peer, `generateToken` is single-flight. In every reachable
interleaving of `generateToken` calls for one peer: (1) no two generations
are inside the provider-save/sign critical section at once, so no two
provider-save batches for the peer run concurrently; (2) a generation can
enter the critical section only when the lock is free, i.e. only after any
in-flight generation has finished; (3) a call completes (`done`) only out of
its own critical section — a later caller performs its own gather after it
acquires the lock and never returns a cached result of an earlier attempt. -/
theorem generateToken_single_flight :
    (∀ s, GenReach s → ∀ i j, s.pcs i = GenPc.gathering →
      s.pcs j = GenPc.gathering → i = j)
  ∧ (∀ s t, GenStep s t → ∀ i, s.pcs i ≠ GenPc.gathering →
      t.pcs i = GenPc.gathering → s.lock = none)
  ∧ (∀ s t, GenStep s t → ∀ i, t.pcs i = GenPc.done →
      s.pcs i = GenPc.done ∨ s.pcs i = GenPc.gathering) := by
  refine ⟨?_, ?_, ?_⟩
  · intro s hr i j hi hj
    obtain ⟨_, _, C, _⟩ := genInv_reach hr
    have h1 := C i hi
    have h2 := C j hj
    rw [h1] at h2
    simpa using h2
  · intro s t hst i hne hg
    cases hst with
    | acquire m h1 h2 => exact h2
    | waitOn m n h1 h2 =>
      by_cases hmi : i = m
      · subst hmi
        simp [updPc] at hg
      · simp only [updPc, hmi, if_false] at hg
        exact absurd hg hne
    | finish m h1 =>
      by_cases hmi : i = m
      · subst hmi
        simp [updPc] at hg
      · simp only [updPc, hmi, if_false] at hg
        exact absurd hg hne
    | reacquire m n h1 h2 h3 => exact h3
    | rewait m n k h1 h2 h3 =>
      by_cases hmi : i = m
      · subst hmi
        simp [updPc] at hg
      · simp only [updPc, hmi, if_false] at hg
        exact absurd hg hne
  · intro s t hst i hd
    cases hst with
    | acquire m h1 h2 =>
      by_cases hmi : i = m
      · subst hmi; simp [updPc] at hd
      · simp only [updPc, hmi, if_false] at hd
        exact Or.inl hd
    | waitOn m n h1 h2 =>
      by_cases hmi : i = m
      · subst hmi; simp [updPc] at hd
      · simp only [updPc, hmi, if_false] at hd
        exact Or.inl hd
    | finish m h1 =>
      by_cases hmi : i = m
      · subst hmi; exact Or.inr h1
      · simp only [updPc, hmi, if_false] at hd
        exact Or.inl hd
    | reacquire m n h1 h2 h3 =>
      by_cases hmi : i = m
      · subst hmi; simp [updPc] at hd
      · simp only [updPc, hmi, if_false] at hd
        exact Or.inl hd
    | rewait m n k h1 h2 h3 =>
      by_cases hmi : i = m
      · subst hmi; simp [updPc] at hd
      · simp only [updPc, hmi, if_false] at hd
        exact Or.inl hd

/-- C2: no generation is left permanently held. In every reachable state:
(1) a finished `generateToken` call holds neither the lock nor the current
generation id — the `finally` block released both before returning, on every
outcome; (2) a call suspended on the lock is never stuck: some step is always
enabled that either finishes the generation it waits on or moves the waiter
forward (into its own gather, or onto the lock of the only generation still
gathering), so a subsequent call for the same peer is never blocked forever. -/
theorem generateToken_lock_released :
    (∀ s, GenReach s → ∀ i, s.pcs i = GenPc.done →
      s.lock ≠ some i ∧ s.current ≠ some i)
  ∧ (∀ s, GenReach s → ∀ i j, s.pcs i = GenPc.waiting j →
      ∃ t, GenStep s t ∧
        (t.pcs j = GenPc.done ∨ t.pcs i = GenPc.gathering ∨
         ∃ k, t.pcs i = GenPc.waiting k ∧ t.pcs k = GenPc.gathering)) := by
  constructor
  · intro s hr i hd
    obtain ⟨A, B, _, _⟩ := genInv_reach hr
    constructor
    · intro hl
      have := (A i hl).2
      rw [hd] at this
      simp at this
    · intro hc
      cases hl : s.lock with
      | none =>
        have := B hl
        rw [hc] at this
        simp at this
      | some m =>
        obtain ⟨hcm, hgm⟩ := A m hl
        rw [hc] at hcm
        simp only [Option.some.injEq] at hcm
        rw [← hcm] at hgm
        rw [hd] at hgm
        simp at hgm
  · intro s hr i j hw
    obtain ⟨A, B, C, D⟩ := genInv_reach hr
    rcases D i j hw with hj | hj
    · refine ⟨_, GenStep.finish s j hj, ?_⟩
      left
      simp [updPc]
    · cases hl : s.lock with
      | none =>
        refine ⟨_, GenStep.reacquire s i j hw hj hl, ?_⟩
        right; left
        simp [updPc]
      | some k =>
        obtain ⟨_, hgk⟩ := A k hl
        have hki : k ≠ i := by
          intro h; subst h
          rw [hw] at hgk
          simp at hgk
        refine ⟨_, GenStep.rewait s i j k hw hj hl, ?_⟩
        right; right
        exact ⟨k, by simp [updPc], by simp [updPc, hki, hgk]⟩

/-- The state after one call (generation id 0) has acquired the lock. -/
def genS1 : GenState := ⟨some 0, some 0, updPc genInit.pcs 0 GenPc.gathering⟩

theorem genS1_reach : GenReach genS1 :=
  GenReach.step GenReach.init (GenStep.acquire genInit 0 rfl rfl)

/-- The state where call 1 arrived while call 0 holds the lock and is now
suspended on call 0's lock promise. -/
def genS2 : GenState :=
  ⟨genS1.lock, genS1.current, updPc genS1.pcs 1 (GenPc.waiting 0)⟩

theorem genS2_reach : GenReach genS2 :=
  GenReach.step genS1_reach (GenStep.waitOn genS1 1 0 rfl rfl)

/-- The state after call 0 finished while call 1 was still waiting. -/
def genS3 : GenState :=
  ⟨if genS2.current = some 0 then none else genS2.lock,
   if genS2.current = some 0 then none else genS2.current,
   updPc genS2.pcs 0 GenPc.done⟩

theorem genS3_reach : GenReach genS3 :=
  GenReach.step genS2_reach (GenStep.finish genS2 0 rfl)

theorem generateToken_single_flight_witness :
    (0 : Nat) = 0 ∧ genInit.lock = none ∧
      (genS2.pcs 0 = GenPc.done ∨ genS2.pcs 0 = GenPc.gathering) :=
  ⟨generateToken_single_flight.1 genS1 genS1_reach 0 0 rfl rfl,
   generateToken_single_flight.2.1 genInit genS1
     (GenStep.acquire genInit 0 rfl rfl) 0 (by decide) rfl,
   generateToken_single_flight.2.2 genS2 genS3
     (GenStep.finish genS2 0 rfl) 0 (by decide)⟩

theorem generateToken_lock_released_witness :
    (genS3.lock ≠ some 0 ∧ genS3.current ≠ some 0) ∧
      ∃ t, GenStep genS2 t ∧
        (t.pcs 0 = GenPc.done ∨ t.pcs 1 = GenPc.gathering ∨
         ∃ k, t.pcs 1 = GenPc.waiting k ∧ t.pcs k = GenPc.gathering) :=
  ⟨generateToken_lock_released.1 genS3 genS3_reach 0 rfl,
   generateToken_lock_released.2 genS2 genS2_reach 1 0 rfl⟩

/-! ## Peer lifecycle (`Starling`, src/core/starling.js)

Transport handles are abstracted to numbers; timers carry their absolute
fire time. `close` is embedded as recording the close reason (the terminal
Closed state); its buffer/request/data cleanup and best-effort socket close
have no observable effect on the fields modelled here. -/

/-- The server-level options object (`helios.options`), as `unlink` reads
it: `this._helios.options?.disconnectionTTL`. -/
structure HeliosOpts where
  disconnectionTTL : Option Nat
deriving Repr, DecidableEq

/-- The fields of a `Starling` relevant to its lifecycle. `ttlOption` is the
per-peer `disconnectionTTL` constructor option (defaulted to 300000 in the
constructor's spread). -/
structure StarlingSt where
  sid : String
  ws : Option Nat
  lastConnected : Nat
  disconnectedAt : Option Nat
  disconnectionTimeout : Option Nat
  reconnecting : Bool
  closedReason : Option String
  ttlOption : Nat
deriving Repr, DecidableEq

/-- Model of `Starling.close(reason)`: transitions to the terminal Closed state. -/
def closeStarling (s : StarlingSt) (reason : String) : StarlingSt :=
  { s with closedReason := some reason }

/-- Model of `Starling.unlink()`: clears the handle, stamps the disconnection time,
and arms the eviction timer with length
`this._helios.options?.disconnectionTTL || 300000` — the server-level
option, not the peer's own `ttlOption`. -/
def unlinkStarling (h : HeliosOpts) (s : StarlingSt) (now : Nat) : StarlingSt :=
  { s with ws := none,
           disconnectedAt := some now,
           disconnectionTimeout := some (now + jsOr h.disconnectionTTL 300000) }

/-- The eviction timer firing: the `setTimeout` callback closes the peer
with reason "Connection timed out" only when it is still disconnected; a
cancelled timer (`disconnectionTimeout = none`) never fires. -/
def fireEviction (s : StarlingSt) : StarlingSt :=
  if s.disconnectionTimeout.isSome then
    if s.ws.isSome then s else closeStarling s "Connection timed out"
  else s

/-- Outcome of a `link` call. -/
inductive LinkResult
  | ok
  | duplicate
  | failed
deriving Repr, DecidableEq

/-- Model of `Starling.link(ws)`: a concurrent call while `_reconnecting` is set is
rejected (duplicate) with no state change; otherwise the handle is set, the
last-connected time stamped, the disconnection stamp and any pending
eviction timer cleared, and the buffer flushed. A flush failure reverts to
Disconnected via `unlink()` and re-raises; `finally` clears the flag. -/
def linkStarling (h : HeliosOpts) (s : StarlingSt) (w : Nat) (now : Nat)
    (flushOk : Bool) : StarlingSt × LinkResult :=
  if s.reconnecting then (s, .duplicate)
  else
    let s1 := { s with reconnecting := true,
                       ws := some w,
                       lastConnected := now,
                       disconnectedAt := none,
                       disconnectionTimeout := none }
    if flushOk then ({ s1 with reconnecting := false }, .ok)
    else ({ unlinkStarling h s1 now with reconnecting := false }, .failed)

/-- The lifecycle operations a peer can undergo, for invariant statements
quantified over operation sequences. -/
inductive LifeOp
  | doLink (w now : Nat) (flushOk : Bool)
  | doUnlink (now : Nat)
  | doFire
deriving Repr, DecidableEq

/-- Apply one lifecycle operation. -/
def applyLifeOp (h : HeliosOpts) (s : StarlingSt) : LifeOp → StarlingSt
  | .doLink w now flushOk => (linkStarling h s w now flushOk).1
  | .doUnlink now => unlinkStarling h s now
  | .doFire => fireEviction s

/-- Run a sequence of lifecycle operations. -/
def runLifeOps (h : HeliosOpts) (s : StarlingSt) : List LifeOp → StarlingSt
  | [] => s
  | op :: rest => runLifeOps h (applyLifeOp h s op) rest

/-- The number of transport handles associated with a peer: `_ws` is a
single nullable slot. -/
def handleCount (s : StarlingSt) : Nat :=
  match s.ws with
  | some _ => 1
  | none => 0

theorem handleCount_le_one (s : StarlingSt) : handleCount s ≤ 1 := by
  cases h : s.ws <;> simp [handleCount, h]

/-- A connected peer with a per-peer `disconnectionTTL` constructor option
of 1000 ms, on a server whose own options carry no `disconnectionTTL`. -/
def c5Peer : StarlingSt :=
  ⟨"p1", some 7, 0, none, none, false, none, 1000⟩

/-- Server options without a `disconnectionTTL`. -/
def c5Helios : HeliosOpts := ⟨none⟩

/-- C5 counterexample: the claim says `unlink()` starts an eviction timer
whose length is the peer's `disconnectionTTL`. For a peer constructed with
`disconnectionTTL = 1000` on a server whose options carry none, `unlink`
arms the timer for 300000 ms — `this._helios.options?.disconnectionTTL ||
300000` reads the server-level option and ignores the peer's own — so the
timer length is not the peer's TTL. -/
theorem unlink_ttl_counterexample :
    (unlinkStarling c5Helios c5Peer 0).disconnectionTimeout = some 300000
  ∧ c5Peer.ttlOption = 1000
  ∧ (unlinkStarling c5Helios c5Peer 0).disconnectionTimeout ≠
      some (0 + c5Peer.ttlOption) := by
  refine ⟨rfl, rfl, ?_⟩
  decide

/-- C5 (amended): `unlink()` clears the transport handle, stamps the
disconnection time, and starts an eviction timer whose length is the
server-level `options.disconnectionTTL` (default 300000 ms = 5 minutes),
not the peer's own constructor option; if that timer fires while the peer
is still disconnected, the peer is closed with reason "Connection timed
out"; and a `link()` that completes before the timer fires cancels it, so
after re-linking the eviction timer is gone and firing is a no-op — the
peer is never closed by eviction after re-linking within the TTL. -/
theorem unlink_ttl_eviction (h : HeliosOpts) (s : StarlingSt)
    (now t2 w : Nat) (hnr : s.reconnecting = false) :
    (unlinkStarling h s now).ws = none
  ∧ (unlinkStarling h s now).disconnectedAt = some now
  ∧ (unlinkStarling h s now).disconnectionTimeout =
      some (now + jsOr h.disconnectionTTL 300000)
  ∧ (fireEviction (unlinkStarling h s now)).closedReason =
      some "Connection timed out"
  ∧ (linkStarling h (unlinkStarling h s now) w t2 true).2 = LinkResult.ok
  ∧ (linkStarling h (unlinkStarling h s now) w t2 true).1.disconnectionTimeout
      = none
  ∧ fireEviction (linkStarling h (unlinkStarling h s now) w t2 true).1 =
      (linkStarling h (unlinkStarling h s now) w t2 true).1 := by
  refine ⟨rfl, rfl, rfl, ?_, ?_, ?_, ?_⟩
  · simp [unlinkStarling, fireEviction, closeStarling]
  · simp [linkStarling, unlinkStarling, hnr]
  · simp [linkStarling, unlinkStarling, hnr]
  · simp [linkStarling, unlinkStarling, hnr, fireEviction]

theorem unlink_ttl_eviction_witness :
    (unlinkStarling c5Helios c5Peer 3).ws = none
  ∧ (unlinkStarling c5Helios c5Peer 3).disconnectedAt = some 3
  ∧ (unlinkStarling c5Helios c5Peer 3).disconnectionTimeout =
      some (3 + jsOr c5Helios.disconnectionTTL 300000)
  ∧ (fireEviction (unlinkStarling c5Helios c5Peer 3)).closedReason =
      some "Connection timed out"
  ∧ (linkStarling c5Helios (unlinkStarling c5Helios c5Peer 3) 8 5 true).2 =
      LinkResult.ok
  ∧ (linkStarling c5Helios (unlinkStarling c5Helios c5Peer 3) 8 5
      true).1.disconnectionTimeout = none
  ∧ fireEviction
      (linkStarling c5Helios (unlinkStarling c5Helios c5Peer 3) 8 5 true).1 =
      (linkStarling c5Helios (unlinkStarling c5Helios c5Peer 3) 8 5 true).1 :=
  unlink_ttl_eviction c5Helios c5Peer 3 5 8 rfl

/-- C6: at most one transport handle is ever associated with a peer — the
handle is a single nullable slot, so after any sequence of lifecycle
operations the peer holds at most one handle; immediately after `unlink()`
the handle is null; and a `link(h)` that returns success leaves the handle
equal to `h`. -/
theorem exclusive_transport_handle :
    (∀ h s ops, handleCount (runLifeOps h s ops) ≤ 1)
  ∧ (∀ h s now, (unlinkStarling h s now).ws = none)
  ∧ (∀ h s w now flushOk,
      (linkStarling h s w now flushOk).2 = LinkResult.ok →
      (linkStarling h s w now flushOk).1.ws = some w) := by
  refine ⟨?_, ?_, ?_⟩
  · intro h s ops
    exact handleCount_le_one _
  · intro h s now
    rfl
  · intro h s w now flushOk hok
    by_cases hr : s.reconnecting
    · simp [linkStarling, hr] at hok
    · by_cases hf : flushOk
      · simp [linkStarling, hr, hf]
      · simp [linkStarling, hr, hf] at hok

theorem exclusive_transport_handle_witness :
    handleCount (runLifeOps c5Helios c5Peer
      [LifeOp.doUnlink 1, LifeOp.doLink 9 2 true, LifeOp.doFire]) ≤ 1
  ∧ (linkStarling c5Helios c5Peer 9 2 true).2 = LinkResult.ok
  ∧ (linkStarling c5Helios c5Peer 9 2 true).1.ws = some 9 :=
  ⟨exclusive_transport_handle.1 c5Helios c5Peer _,
   by decide,
   exclusive_transport_handle.2.2 c5Helios c5Peer 9 2 true (by decide)⟩

/-! ## Proxy routing engine (`ProxyManager`, managers/proxy.js)

The peer registry is embedded at its interface (`starlings.has` /
`starlings.get`, keyed by peer id as `ProxyManager` uses them), the rule
resolver by its outcome per (message, source), and a transport send by its
outcome per target (`none` = delivered, `some e` = the send threw `e`). -/

/-- Message kinds the proxy pipeline distinguishes. -/
inductive MsgType
  | request
  | notification
  | response
deriving Repr, DecidableEq

/-- A protocol message as the proxy engine sees it. -/
structure PMessage where
  mtype : MsgType
  requestId : Nat
  body : String
deriving Repr, DecidableEq

/-- The `_proxy` provenance block attached by `_enrichMessage`. -/
structure ProxyMeta where
  sourceId : String
  timestamp : Nat
  route : List String
deriving Repr, DecidableEq

/-- A message enriched with proxy provenance. -/
structure ProxiedMessage where
  base : PMessage
  meta : ProxyMeta
deriving Repr, DecidableEq

/-- A Pending Proxy Request entry (`_activeProxies` value). -/
structure ProxyInfo where
  sourceId : String
  timestamp : Nat
deriving Repr, DecidableEq

/-- Active-rule options, after `setRule` merged the defaults. -/
structure RuleOptions where
  allowRequests : Bool
  allowNotifications : Bool
  timeout : Nat
deriving Repr, DecidableEq

/-- The active proxy rule: the target-resolution handler (by its outcome:
`.error` = the resolver threw, `.ok none` = it returned no target,
`.ok (some t)` = it named target `t`) and the merged options. -/
structure ProxyRule where
  handler : PMessage → String → Except String (Option String)
  options : RuleOptions

/-- The metrics record (`byType` holds the request/notification counters;
the rolling latency window keeps the last 100 entries). -/
structure PMetrics where
  totalProxied : Nat
  activeProxies : Nat
  deniedProxies : Nat
  successfulProxies : Nat
  byRequest : Nat
  byNotification : Nat
  latencies : List Nat
deriving Repr, DecidableEq

/-- Outbound deliveries recorded by the engine. -/
inductive Sent
  | forwarded (target : String) (msg : ProxiedMessage)
  | errorResponse (target : String) (requestId : Nat) (msg : String)
  | completedResponse (target : String) (resp : PMessage) (info : ProxyInfo)
deriving Repr, DecidableEq

/-- Events emitted by the engine. -/
inductive PEvent
  | ruleSet
  | proxyError (msg : String)
  | proxyTimeout (requestId : Nat)
deriving Repr, DecidableEq

/-- The `ProxyManager` state: active rule, metrics, the Pending Proxy
Request table keyed by correlation id, plus the emitted events and sends
(most recent first). -/
structure PMState where
  rules : Option ProxyRule
  metrics : PMetrics
  active : List (Nat × ProxyInfo)
  events : List PEvent
  sends : List Sent

/-- Model of `ProxyManager._validateProxy`: fails when no rule is configured or the
message's kind is disabled by the active rule's options. -/
def validateProxy (rules : Option ProxyRule) (msg : PMessage) :
    Except String ProxyRule :=
  match rules with
  | none => .error "No proxy rules configured"
  | some r =>
    if msg.mtype = MsgType.request ∧ r.options.allowRequests = false then
      .error "Request proxying is disabled"
    else if msg.mtype = MsgType.notification ∧
        r.options.allowNotifications = false then
      .error "Notification proxying is disabled"
    else .ok r

/-- Model of `ProxyManager._resolveTarget`: ask the rule handler for a target; a
thrown resolver propagates, and a missing target or one unknown to the
registry counts a denial and fails. -/
def resolveTarget (r : ProxyRule) (reg : String → Bool) (m : PMetrics)
    (msg : PMessage) (src : String) : PMetrics × Except String String :=
  match r.handler msg src with
  | .error e => (m, .error e)
  | .ok none =>
    ({ m with deniedProxies := m.deniedProxies + 1 },
     .error "Proxy target not found or denied")
  | .ok (some t) =>
    if reg t then (m, .ok t)
    else
      ({ m with deniedProxies := m.deniedProxies + 1 },
       .error "Proxy target not found or denied")

/-- Model of `ProxyManager._enrichMessage`: attach source id, timestamp and the
one-hop forwarding route, leaving the original message untouched. -/
def enrichMessage (msg : PMessage) (src : String) (now : Nat) :
    ProxiedMessage :=
  ⟨msg, ⟨src, now, [src]⟩⟩

/-- Model of `ProxyManager._trackProxyRequest`: register the Pending Proxy Request
under the message's correlation id (the forwarding-timeout timer it starts
is modelled by `proxyTimeoutFire` below). -/
def trackProxyRequest (active : List (Nat × ProxyInfo)) (pm : ProxiedMessage)
    (src : String) (now : Nat) : List (Nat × ProxyInfo) :=
  setA active pm.base.requestId ⟨src, now⟩

/-- Model of `ProxyManager._updateMetrics`: push the latency, keep the last 100. -/
def pushLatency (m : PMetrics) (lat : Nat) : PMetrics :=
  let ls := m.latencies ++ [lat]
  { m with latencies := if ls.length > 100 then ls.drop 1 else ls }

/-- The `try` block of `handleProxy`, on a state whose counters were already
incremented: returns the mutated state and the thrown error, if any. A send
failure leaves the freshly tracked pending entry in place (only the timeout
removes it). -/
def tryProxy (st : PMState) (reg : String → Bool)
    (sendOut : String → Option String) (msg : PMessage) (src : String)
    (now fin : Nat) : PMState × Option String :=
  match validateProxy st.rules msg with
  | .error e => (st, some e)
  | .ok r =>
    match resolveTarget r reg st.metrics msg src with
    | (m1, .error e) => ({ st with metrics := m1 }, some e)
    | (m1, .ok t) =>
      let pm := enrichMessage msg src now
      let act1 :=
        if msg.mtype = MsgType.request then
          trackProxyRequest st.active pm src now
        else st.active
      match sendOut t with
      | some e =>
        ({ st with metrics := m1, active := act1 },
         some ("Failed to send to target: " ++ e))
      | none =>
        let m2 := { m1 with
          byRequest :=
            m1.byRequest + (if msg.mtype = MsgType.request then 1 else 0),
          byNotification :=
            m1.byNotification +
              (if msg.mtype = MsgType.notification then 1 else 0) }
        ({ st with metrics := pushLatency m2 (fin - now),
                   active := act1,
                   sends := Sent.forwarded t pm :: st.sends }, none)

/-- Model of `ProxyManager._handleProxyError`: emit `proxy:error` and, for requests,
send a synthetic failure response back to the source. -/
def handleProxyErrorStep (st : PMState) (msg : PMessage) (src : String)
    (e : String) : PMState :=
  { st with
    events := PEvent.proxyError e :: st.events,
    sends :=
      (if msg.mtype = MsgType.request then
        [Sent.errorResponse src msg.requestId e]
      else []) ++ st.sends }

/-- Model of `ProxyManager.handleProxy`: bump `totalProxied`/`activeProxies`, run the
pipeline, route any thrown error through `_handleProxyError` and return
`false`, and decrement `activeProxies` in the `finally` regardless of
outcome. -/
def handleProxy (st : PMState) (reg : String → Bool)
    (sendOut : String → Option String) (msg : PMessage) (src : String)
    (now fin : Nat) : PMState × Bool :=
  let st0 := { st with metrics :=
    { st.metrics with totalProxied := st.metrics.totalProxied + 1,
                      activeProxies := st.metrics.activeProxies + 1 } }
  let r := tryProxy st0 reg sendOut msg src now fin
  match r.2 with
  | none =>
    ({ r.1 with metrics :=
        { r.1.metrics with activeProxies := r.1.metrics.activeProxies - 1 } },
     true)
  | some e =>
    let st1 := handleProxyErrorStep r.1 msg src e
    ({ st1 with metrics :=
        { st1.metrics with activeProxies := st1.metrics.activeProxies - 1 } },
     false)

/-- Model of `ProxyManager.handleProxyResponse`: look up the Pending Proxy
Request by correlation id ("Unknown proxy response" when absent); resolve
the original source peer ("Source client disconnected" when gone), then
`await sourceClient.send(...)` the response annotated `completed: true` — a
rejected send rethrows its error and `successfulProxies` is not bumped;
only a delivered send bumps it. The `finally` removes the pending entry on
every path past the lookup, a failed send included. `sendOut` gives the
awaited send's outcome per source peer (`none` = delivered, `some e` = the
send threw `e`), as for `target.send` in `handleProxy`. -/
def handleProxyResponse (st : PMState) (present : String → Bool)
    (sendOut : String → Option String) (resp : PMessage) :
    PMState × Except String Unit :=
  match lookupA st.active resp.requestId with
  | none => (st, .error "Unknown proxy response")
  | some info =>
    let stDel := { st with active := eraseA st.active resp.requestId }
    if present info.sourceId then
      match sendOut info.sourceId with
      | some e => (stDel, .error e)
      | none =>
        ({ stDel with
            sends :=
              Sent.completedResponse info.sourceId resp info :: stDel.sends,
            metrics := { stDel.metrics with
              successfulProxies := stDel.metrics.successfulProxies + 1 } },
         .ok ())
    else (stDel, .error "Source client disconnected")

/-- The forwarding-timeout callback armed by `_trackProxyRequest`: when the
pending entry is still present, `_handleProxyTimeout` removes it and emits
`proxy:timeout`; a response having already removed the entry makes the
callback a no-op. -/
def proxyTimeoutFire (st : PMState) (requestId : Nat) : PMState :=
  if (lookupA st.active requestId).isSome then
    { st with active := eraseA st.active requestId,
              events := PEvent.proxyTimeout requestId :: st.events }
  else st

theorem tryProxy_activeProxies (st : PMState) (reg : String → Bool)
    (sendOut : String → Option String) (msg : PMessage) (src : String)
    (now fin : Nat) :
    (tryProxy st reg sendOut msg src now fin).1.metrics.activeProxies =
      st.metrics.activeProxies := by
  cases hv : validateProxy st.rules msg with
  | error e => simp [tryProxy, hv]
  | ok r =>
    cases hh : r.handler msg src with
    | error e => simp [tryProxy, hv, resolveTarget, hh]
    | ok tgt =>
      cases tgt with
      | none => simp [tryProxy, hv, resolveTarget, hh]
      | some t =>
        by_cases hreg : reg t
        · cases hs : sendOut t with
          | none => simp [tryProxy, hv, resolveTarget, hh, hreg, hs, pushLatency]
          | some e => simp [tryProxy, hv, resolveTarget, hh, hreg, hs]
        · simp [tryProxy, hv, resolveTarget, hh, hreg]

theorem tryProxy_events (st : PMState) (reg : String → Bool)
    (sendOut : String → Option String) (msg : PMessage) (src : String)
    (now fin : Nat) :
    (tryProxy st reg sendOut msg src now fin).1.events = st.events := by
  cases hv : validateProxy st.rules msg with
  | error e => simp [tryProxy, hv]
  | ok r =>
    cases hh : r.handler msg src with
    | error e => simp [tryProxy, hv, resolveTarget, hh]
    | ok tgt =>
      cases tgt with
      | none => simp [tryProxy, hv, resolveTarget, hh]
      | some t =>
        by_cases hreg : reg t
        · cases hs : sendOut t with
          | none => simp [tryProxy, hv, resolveTarget, hh, hreg, hs]
          | some e => simp [tryProxy, hv, resolveTarget, hh, hreg, hs]
        · simp [tryProxy, hv, resolveTarget, hh, hreg]

theorem tryProxy_none_iff (st : PMState) (reg : String → Bool)
    (sendOut : String → Option String) (msg : PMessage) (src : String)
    (now fin : Nat) :
    (tryProxy st reg sendOut msg src now fin).2 = none ↔
      ∃ r t, validateProxy st.rules msg = .ok r ∧
        r.handler msg src = .ok (some t) ∧ reg t = true ∧ sendOut t = none := by
  cases hv : validateProxy st.rules msg with
  | error e => simp [tryProxy, hv]
  | ok r =>
    cases hh : r.handler msg src with
    | error e => simp [tryProxy, hv, resolveTarget, hh]
    | ok tgt =>
      cases tgt with
      | none => simp [tryProxy, hv, resolveTarget, hh]
      | some t =>
        by_cases hreg : reg t
        · cases hs : sendOut t with
          | none => simp [tryProxy, hv, resolveTarget, hh, hreg, hs]
          | some e => simp [tryProxy, hv, resolveTarget, hh, hreg, hs]
        · simp [tryProxy, hv, resolveTarget, hh, hreg]

theorem tryProxy_none_sends (st : PMState) (reg : String → Bool)
    (sendOut : String → Option String) (msg : PMessage) (src : String)
    (now fin : Nat)
    (h : (tryProxy st reg sendOut msg src now fin).2 = none) :
    ∃ t, (tryProxy st reg sendOut msg src now fin).1.sends =
      Sent.forwarded t (enrichMessage msg src now) :: st.sends := by
  rcases (tryProxy_none_iff st reg sendOut msg src now fin).mp h with
    ⟨r, t, hv, hh, hreg, hs⟩
  exact ⟨t, by simp [tryProxy, hv, resolveTarget, hh, hreg, hs]⟩

/-- C10: `handleProxy` never throws to its caller — it is a total pipeline
returning a boolean: `true` exactly when a rule is configured that allows
the message's kind, the resolver names a target known to the registry, and
the send succeeds; `false` on every failure path, with a `proxy:error`
event emitted for the failure; and the `finally`-guarded decrement makes
the net change of `activeProxies` from one call zero on every outcome. -/
theorem handleProxy_balanced (st : PMState) (reg : String → Bool)
    (sendOut : String → Option String) (msg : PMessage) (src : String)
    (now fin : Nat) :
    ((handleProxy st reg sendOut msg src now fin).1.metrics.activeProxies =
      st.metrics.activeProxies)
  ∧ ((handleProxy st reg sendOut msg src now fin).2 = true ↔
      ∃ r t, validateProxy st.rules msg = .ok r ∧
        r.handler msg src = .ok (some t) ∧ reg t = true ∧ sendOut t = none)
  ∧ ((handleProxy st reg sendOut msg src now fin).2 = false →
      ∃ e, (handleProxy st reg sendOut msg src now fin).1.events =
        PEvent.proxyError e :: st.events)
  ∧ ((handleProxy st reg sendOut msg src now fin).2 = true →
      (handleProxy st reg sendOut msg src now fin).1.events = st.events ∧
      ∃ t, (handleProxy st reg sendOut msg src now fin).1.sends =
        Sent.forwarded t (enrichMessage msg src now) :: st.sends) := by
  set st0 : PMState := { st with metrics :=
    { st.metrics with totalProxied := st.metrics.totalProxied + 1,
                      activeProxies := st.metrics.activeProxies + 1 } } with hst0
  have hact := tryProxy_activeProxies st0 reg sendOut msg src now fin
  have hev := tryProxy_events st0 reg sendOut msg src now fin
  have hiff := tryProxy_none_iff st0 reg sendOut msg src now fin
  refine ⟨?_, ?_, ?_, ?_⟩
  · cases hres : (tryProxy st0 reg sendOut msg src now fin).2 with
    | none =>
      simp only [handleProxy, ← hst0, hres]
      rw [hact]
      simp [hst0]
    | some e =>
      simp only [handleProxy, ← hst0, hres, handleProxyErrorStep]
      rw [hact]
      simp [hst0]
  · have hres2 : (handleProxy st reg sendOut msg src now fin).2 = true ↔
        (tryProxy st0 reg sendOut msg src now fin).2 = none := by
      cases hres : (tryProxy st0 reg sendOut msg src now fin).2 with
      | none => simp [handleProxy, ← hst0, hres]
      | some e => simp [handleProxy, ← hst0, hres]
    rw [hres2]
    exact hiff
  · cases hres : (tryProxy st0 reg sendOut msg src now fin).2 with
    | none => simp [handleProxy, ← hst0, hres]
    | some e =>
      intro _
      refine ⟨e, ?_⟩
      have h1 : (handleProxy st reg sendOut msg src now fin).1.events =
          PEvent.proxyError e ::
            (tryProxy st0 reg sendOut msg src now fin).1.events := by
        simp [handleProxy, ← hst0, hres, handleProxyErrorStep]
      rw [h1, hev]
  · cases hres : (tryProxy st0 reg sendOut msg src now fin).2 with
    | none =>
      intro _
      have h1 : (handleProxy st reg sendOut msg src now fin).1.events =
          (tryProxy st0 reg sendOut msg src now fin).1.events := by
        simp [handleProxy, ← hst0, hres]
      have h2 : (handleProxy st reg sendOut msg src now fin).1.sends =
          (tryProxy st0 reg sendOut msg src now fin).1.sends := by
        simp [handleProxy, ← hst0, hres]
      obtain ⟨t, hts⟩ := tryProxy_none_sends st0 reg sendOut msg src now fin hres
      refine ⟨by rw [h1, hev], ⟨t, ?_⟩⟩
      rw [h2, hts]
    | some e => simp [handleProxy, ← hst0, hres]

/-- C4: exactly-once proxy response correlation. With a Pending Proxy
Request under the response's correlation id: the first `handleProxyResponse`
succeeds when the original source peer is still there and the awaited
forward to it is delivered — annotating the response with completed-proxy
provenance and bumping `successfulProxies`; when the forward rejects, the
call rethrows the send error and `successfulProxies` is not bumped; when
the source peer is gone, it fails with "Source client disconnected". On
every outcome past the lookup the pending entry is removed, so a second
call with the same id fails with "Unknown proxy response". The
forwarding-timeout callback removes the entry and emits `proxy:timeout`
exactly once: firing again is a no-op, and a response after the timeout
gets "Unknown proxy response". -/
theorem proxy_response_exactly_once (st : PMState) (present : String → Bool)
    (sendOut : String → Option String) (resp : PMessage) (info : ProxyInfo)
    (hl : lookupA st.active resp.requestId = some info) :
    (present info.sourceId = true → sendOut info.sourceId = none →
      (handleProxyResponse st present sendOut resp).2 = .ok () ∧
      (handleProxyResponse st present sendOut resp).1.sends =
        Sent.completedResponse info.sourceId resp info :: st.sends ∧
      (handleProxyResponse st present sendOut
        resp).1.metrics.successfulProxies =
        st.metrics.successfulProxies + 1)
  ∧ (∀ e, present info.sourceId = true → sendOut info.sourceId = some e →
      (handleProxyResponse st present sendOut resp).2 = .error e ∧
      (handleProxyResponse st present sendOut
        resp).1.metrics.successfulProxies = st.metrics.successfulProxies)
  ∧ (present info.sourceId = false →
      (handleProxyResponse st present sendOut resp).2 =
        .error "Source client disconnected")
  ∧ lookupA (handleProxyResponse st present sendOut resp).1.active
      resp.requestId = none
  ∧ (handleProxyResponse (handleProxyResponse st present sendOut resp).1
      present sendOut resp).2 = .error "Unknown proxy response"
  ∧ (proxyTimeoutFire st resp.requestId).events =
      PEvent.proxyTimeout resp.requestId :: st.events
  ∧ proxyTimeoutFire (proxyTimeoutFire st resp.requestId) resp.requestId =
      proxyTimeoutFire st resp.requestId
  ∧ (handleProxyResponse (proxyTimeoutFire st resp.requestId) present
      sendOut resp).2 = .error "Unknown proxy response" := by
  refine ⟨?_, ?_, ?_, ?_, ?_, ?_, ?_, ?_⟩
  · intro hp hs
    refine ⟨?_, ?_, ?_⟩ <;> simp [handleProxyResponse, hl, hp, hs]
  · intro e hp hs
    refine ⟨?_, ?_⟩ <;> simp [handleProxyResponse, hl, hp, hs]
  · intro hp
    simp [handleProxyResponse, hl, hp]
  · cases hp : present info.sourceId
    · simp [handleProxyResponse, hl, hp, lookupA_eraseA]
    · cases hs : sendOut info.sourceId <;>
        simp [handleProxyResponse, hl, hp, hs, lookupA_eraseA]
  · cases hp : present info.sourceId
    · simp [handleProxyResponse, hl, hp, lookupA_eraseA]
    · cases hs : sendOut info.sourceId <;>
        simp [handleProxyResponse, hl, hp, hs, lookupA_eraseA]
  · simp [proxyTimeoutFire, hl]
  · simp [proxyTimeoutFire, hl, lookupA_eraseA]
  · simp [handleProxyResponse, proxyTimeoutFire, hl, lookupA_eraseA]

/-! ## Connection registry (`StarlingsManager`, src/managers/starlings.js)

`handleConnection` is embedded on the registry's two maps, with `jwtVerify`
given by its outcome per token, transport handles as numbers, and the fresh
peer id supplied as a parameter (the `randomUUIDv7` of the new `Starling`).
Restoration against the new peer runs through `restoreRun` on the new
peer's auto-registered core states. -/

/-- The two registry maps: `_connections` (handle ↦ peer id) and
`_starlingsById` (id ↦ peer id, the peer abstracted to its id). -/
structure MgrState where
  connections : List (Nat × String)
  starlingsById : List (String × String)
deriving Repr, DecidableEq

/-- Events emitted on the connection-handling paths. -/
inductive MEvent
  | recoveryFailed (msg : String)          -- 'starling:recovery:failed'
  | stateRestoreFailedOn (id msg : String) -- 'starling:state:restore:failed'
  | starlingNew (id : String)              -- 'starling:new'
  | recovered (id : String)                -- 'starling:recovered'
deriving Repr, DecidableEq

/-- Model of `StatesManager._registerCoreStates`: the `connection` and `info`
namespaces auto-registered at construction, both required, with trivial
saves and no-op restores. -/
def coreStatesMgr (ownerId : String) (connVal infoVal : SVal) : StatesMgr :=
  { ownerId := ownerId,
    providers :=
      [("connection", ⟨.ok connVal, fun _ => .ok (), none⟩),
       ("info", ⟨.ok infoVal, fun _ => .ok (), none⟩)],
    opts :=
      [("connection", ⟨true, none⟩), ("info", ⟨true, none⟩)] }

/-- Model of `StarlingsManager._createNewStarling`: allocate a fresh peer, attempt a
best-effort `states.restore` when a recovery token was carried (any failure
is caught and reported as `starling:state:restore:failed`, never rethrown),
register the peer under both maps, and emit `starling:new`. -/
def createNewStarling (st : MgrState) (ws : Nat) (freshId : String)
    (recoverTok : Option (Except String TokenPayload)) :
    MgrState × List MEvent :=
  let m := coreStatesMgr freshId "conn" "info"
  let restoreEvs : List MEvent :=
    match recoverTok with
    | none => []
    | some verified =>
      match (restoreRun m verified).2 with
      | .ok _ => []
      | .error e => [MEvent.stateRestoreFailedOn freshId e]
  ({ connections := setA st.connections ws freshId,
     starlingsById := setA st.starlingsById freshId freshId },
   restoreEvs ++ [MEvent.starlingNew freshId])

/-- Model of `StarlingsManager.handleConnection`: with no token, create a new peer.
With a token, attempt recovery: a throwing verification is caught, reported
as `starling:recovery:failed`, and falls through to new-peer creation
(carrying the failed token for best-effort restoration); a verified token
whose peer id is unknown makes `_attemptRecovery` return null — no
recovery-failure event — and likewise falls through; a known peer id
re-links the existing peer and emits `starling:recovered`. -/
def handleConnection (st : MgrState) (ws : Nat) (tok : Option String)
    (verify : String → Except String TokenPayload) (freshId : String) :
    MgrState × List MEvent :=
  match tok with
  | none => createNewStarling st ws freshId none
  | some t =>
    match verify t with
    | .error e =>
      let r := createNewStarling st ws freshId (some (.error e))
      (r.1, MEvent.recoveryFailed e :: r.2)
    | .ok p =>
      match lookupA st.starlingsById p.starlingId with
      | none => createNewStarling st ws freshId (some (.ok p))
      | some _ =>
        ({ st with connections := setA st.connections ws p.starlingId },
         [MEvent.recovered p.starlingId])

/-- Whether an event is the `starling:recovery:failed` report. -/
def isRecoveryFailedEv : MEvent → Bool
  | .recoveryFailed _ => true
  | _ => false

/-! ## Claim theorems for the state subsystem and the registry -/

/-- C3: save failures during `generateToken`. When at least one required
provider's save rejects, the call fails with a single error that aggregates
every required-state failure message — the whole provider list having been
processed, since the aggregate lists the messages of all such failures, not
just the first. When only non-required saves reject, the call succeeds, the
token holding exactly the namespaces whose save succeeded (so exactly the
failed non-required namespaces are omitted), and each non-required failure
is reported as a `state:save:failed` event, never as an error. -/
theorem generateToken_required_aggregation (m : StatesMgr) (ts : Nat) :
    (requiredFailMsgs m.opts m.providers ≠ [] →
      (generateTokenOutcome m ts).1 =
        .error ("State token generation failed: " ++
          String.intercalate ", " (requiredFailMsgs m.opts m.providers)))
  ∧ (requiredFailMsgs m.opts m.providers = [] →
      (generateTokenOutcome m ts).1 =
        .ok ⟨m.ownerId, savedPairs m.providers, ts⟩)
  ∧ (generateTokenOutcome m ts).2 = nonReqFailEvents m.opts m.providers := by
  have h := gatherStates_eq m.opts m.providers
  refine ⟨?_, ?_, ?_⟩
  · intro hne
    simp [generateTokenOutcome, h, hne]
  · intro heq
    simp [generateTokenOutcome, h, heq]
  · by_cases hne : requiredFailMsgs m.opts m.providers = [] <;>
      simp [generateTokenOutcome, h, hne]

/-- A manager with one required provider whose save fails, one failing
non-required provider, and one healthy non-required provider. -/
def c3Mgr : StatesMgr :=
  { ownerId := "P",
    providers :=
      [("a", ⟨.ok "va", fun _ => .ok (), none⟩),
       ("b", ⟨.error "boom", fun _ => .ok (), none⟩),
       ("c", ⟨.error "meh", fun _ => .ok (), none⟩)],
    opts :=
      [("a", ⟨false, none⟩), ("b", ⟨true, none⟩), ("c", ⟨false, none⟩)] }

/-- The same manager with the required provider healthy. -/
def c3MgrOk : StatesMgr :=
  { ownerId := "P",
    providers :=
      [("a", ⟨.ok "va", fun _ => .ok (), none⟩),
       ("b", ⟨.ok "vb", fun _ => .ok (), none⟩),
       ("c", ⟨.error "meh", fun _ => .ok (), none⟩)],
    opts :=
      [("a", ⟨false, none⟩), ("b", ⟨true, none⟩), ("c", ⟨false, none⟩)] }

theorem generateToken_required_aggregation_witness :
    (generateTokenOutcome c3Mgr 5).1 =
      .error ("State token generation failed: " ++
        String.intercalate ", " (requiredFailMsgs c3Mgr.opts c3Mgr.providers))
  ∧ (generateTokenOutcome c3MgrOk 5).1 =
      .ok ⟨c3MgrOk.ownerId, savedPairs c3MgrOk.providers, 5⟩ :=
  ⟨(generateToken_required_aggregation c3Mgr 5).1 (by decide),
   (generateToken_required_aggregation c3MgrOk 5).2.1 (by decide)⟩

/-- C8: a verified token whose embedded `starlingId` differs from the owning
peer's id makes `restore` fail by throwing "Token starling ID mismatch";
no registered provider's restore function is invoked and nothing is applied,
so the peer's application state is unchanged. -/
theorem restore_id_mismatch (m : StatesMgr) (p : TokenPayload)
    (h : p.starlingId ≠ m.ownerId) :
    (restoreRun m (.ok p)).2 = .error "Token starling ID mismatch"
  ∧ (restoreRun m (.ok p)).1.calls = []
  ∧ (restoreRun m (.ok p)).1.applied = [] := by
  refine ⟨?_, ?_, ?_⟩ <;> simp [restoreRun, h]

theorem restore_id_mismatch_witness :
    (restoreRun (coreStatesMgr "B" "c" "i")
        (.ok ⟨"A", [("connection", "x")], 0⟩)).2 =
      .error "Token starling ID mismatch"
  ∧ (restoreRun (coreStatesMgr "B" "c" "i")
        (.ok ⟨"A", [("connection", "x")], 0⟩)).1.calls = [] :=
  ⟨(restore_id_mismatch (coreStatesMgr "B" "c" "i")
      ⟨"A", [("connection", "x")], 0⟩ (by decide)).1,
   (restore_id_mismatch (coreStatesMgr "B" "c" "i")
      ⟨"A", [("connection", "x")], 0⟩ (by decide)).2.1⟩

theorem restoreRun_error_case (m : StatesMgr) (p : TokenPayload)
    (hid : p.starlingId = m.ownerId)
    (herr : ((restoreFromToken m p.states).app
      (restoreDefaults m (restoreFromToken m p.states).applied m.opts)).errors
        ≠ []) :
    (restoreRun m (.ok p)).2 = .error (String.intercalate ", "
      ((restoreFromToken m p.states).app
        (restoreDefaults m (restoreFromToken m p.states).applied
          m.opts)).errors)
  ∧ (restoreRun m (.ok p)).1.applied =
      ((restoreFromToken m p.states).app
        (restoreDefaults m (restoreFromToken m p.states).applied
          m.opts)).applied := by
  constructor <;> simp [restoreRun, hid, herr]

/-- C9: a required namespace with no `defaultState` that is absent from the
presented token makes the whole restore fail — the final error being the
join of the errors collected after both loops have processed every
namespace, among them this namespace's missing-state message — while every
restoration already applied during the token pass (in particular to
non-required namespaces) remains applied, with no rollback. -/
theorem restore_required_missing (m : StatesMgr) (p : TokenPayload)
    (ns : String) (o : SOptions)
    (hid : p.starlingId = m.ownerId)
    (hmem : (ns, o) ∈ m.opts)
    (hnd : (m.opts.map Prod.fst).Nodup)
    (hreq : o.required = true)
    (hdef : o.defaultState = none)
    (habs : lookupA p.states ns = none) :
    (∃ errs, (restoreRun m (.ok p)).2 = .error (String.intercalate ", " errs)
      ∧ ("Required state " ++ ns ++ " missing from token") ∈ errs)
  ∧ (∀ x ∈ (restoreFromToken m p.states).applied,
      x ∈ (restoreRun m (.ok p)).1.applied) := by
  have hnotmem := lookupA_none_not_mem p.states ns habs
  have hni : (restoreFromToken m p.states).applied.contains ns = false := by
    rw [containsFalseIff]
    intro hmm
    exact hnotmem (restoreFromToken_applied_mem m p.states ns hmm)
  have hmiss := restoreDefaults_missing_mem m ns o m.opts
    (restoreFromToken m p.states).applied hmem hnd hni hreq hdef
  have herr : ((restoreFromToken m p.states).app
      (restoreDefaults m (restoreFromToken m p.states).applied m.opts)).errors
        ≠ [] := by
    intro h0
    rw [RestoreOut.app] at h0
    simp only [List.append_eq_nil] at h0
    rw [h0.2] at hmiss
    simp at hmiss
  obtain ⟨hres, happ⟩ := restoreRun_error_case m p hid herr
  refine ⟨⟨_, hres, ?_⟩, ?_⟩
  · rw [RestoreOut.app]
    exact List.mem_append_right _ hmiss
  · intro x hx
    rw [happ, RestoreOut.app]
    exact List.mem_append_left _ hx

/-- A peer with a healthy non-required namespace `a` and a required
namespace `req1` with no default. -/
def c9Mgr : StatesMgr :=
  { ownerId := "P",
    providers :=
      [("a", ⟨.ok "sa", fun _ => .ok (), none⟩),
       ("req1", ⟨.ok "sr", fun _ => .ok (), none⟩)],
    opts := [("a", ⟨false, none⟩), ("req1", ⟨true, none⟩)] }

/-- A presented token carrying only the non-required namespace `a`. -/
def c9Tok : TokenPayload := ⟨"P", [("a", "v")], 0⟩

theorem restore_required_missing_witness :
    (∃ errs,
      (restoreRun c9Mgr (.ok c9Tok)).2 =
        .error (String.intercalate ", " errs)
      ∧ ("Required state " ++ "req1" ++ " missing from token") ∈ errs)
  ∧ (∀ x ∈ (restoreFromToken c9Mgr c9Tok.states).applied,
      x ∈ (restoreRun c9Mgr (.ok c9Tok)).1.applied) :=
  restore_required_missing c9Mgr c9Tok "req1" ⟨true, none⟩ rfl
    (by decide) (by decide) rfl rfl rfl

/-- The verifier outcome for a token that verifies but names an unknown
peer id `A`. -/
def c7verify : String → Except String TokenPayload :=
  fun _ => .ok ⟨"A", [("connection", "x")], 0⟩

/-- Running `handleConnection` on an empty registry with the unknown-id token,
creating the fresh peer `B`. -/
def c7run : MgrState × List MEvent :=
  handleConnection ⟨[], []⟩ 1 (some "tok") c7verify "B"

/-- C7 counterexample: the claim says every recovery failure — including an
unknown peer id — is reported as a non-fatal event. On a connection whose
token verifies but references a peer id absent from the registry,
`_attemptRecovery` returns null without throwing, so `handleConnection`
emits no `starling:recovery:failed` event at all (the only failure event it
emits is the downstream restoration failure on the fresh peer); the new
peer is still created and registered under both maps. -/
theorem handleConnection_unknown_id_counterexample :
    c7run.2.any isRecoveryFailedEv = false
  ∧ lookupA c7run.1.connections 1 = some "B"
  ∧ lookupA c7run.1.starlingsById "B" = some "B"
  ∧ MEvent.stateRestoreFailedOn "B" "Token starling ID mismatch" ∈ c7run.2 := by
  refine ⟨?_, ?_, ?_, ?_⟩ <;> decide

/-- C7 (amended): `handleConnection` never throws to its caller. A recovery
attempt that fails by a thrown verification error (invalid signature,
expired token, verification error) is caught and reported as the non-fatal
`starling:recovery:failed` event; a token that verifies but names an
unknown peer id falls through silently, with no recovery-failure event. In
both cases a new peer is created and registered under both maps, and
best-effort restoration from the failed token is attempted against it, any
restoration failure being reported as `starling:state:restore:failed`
rather than escalated. -/
theorem handleConnection_recovery_soft (st : MgrState) (ws : Nat)
    (t e freshId : String) (verify : String → Except String TokenPayload) :
    (verify t = .error e →
      (handleConnection st ws (some t) verify freshId).2 =
        [MEvent.recoveryFailed e, MEvent.stateRestoreFailedOn freshId e,
         MEvent.starlingNew freshId]
      ∧ lookupA (handleConnection st ws (some t) verify
          freshId).1.connections ws = some freshId
      ∧ lookupA (handleConnection st ws (some t) verify
          freshId).1.starlingsById freshId = some freshId)
  ∧ (∀ p, verify t = .ok p →
      lookupA st.starlingsById p.starlingId = none →
      p.starlingId ≠ freshId →
      (handleConnection st ws (some t) verify freshId).2.any
        isRecoveryFailedEv = false
      ∧ lookupA (handleConnection st ws (some t) verify
          freshId).1.connections ws = some freshId
      ∧ lookupA (handleConnection st ws (some t) verify
          freshId).1.starlingsById freshId = some freshId
      ∧ MEvent.stateRestoreFailedOn freshId "Token starling ID mismatch" ∈
          (handleConnection st ws (some t) verify freshId).2) := by
  constructor
  · intro hv
    refine ⟨?_, ?_, ?_⟩
    · simp [handleConnection, hv, createNewStarling, restoreRun]
    · simp [handleConnection, hv, createNewStarling, lookupA_setA]
    · simp [handleConnection, hv, createNewStarling, lookupA_setA]
  · intro p hv hun hne
    have hmm : (restoreRun (coreStatesMgr freshId "conn" "info")
        (.ok p)).2 = .error "Token starling ID mismatch" := by
      have : p.starlingId ≠ (coreStatesMgr freshId "conn" "info").ownerId := hne
      simp [restoreRun, this]
    refine ⟨?_, ?_, ?_, ?_⟩
    · simp [handleConnection, hv, hun, createNewStarling, hmm,
        isRecoveryFailedEv]
    · simp [handleConnection, hv, hun, createNewStarling, lookupA_setA]
    · simp [handleConnection, hv, hun, createNewStarling, lookupA_setA]
    · simp [handleConnection, hv, hun, createNewStarling, hmm]

/-- The verifier outcome for a token whose signature check throws. -/
def c7badVerify : String → Except String TokenPayload :=
  fun _ => .error "signature verification failed"

theorem handleConnection_recovery_soft_witness :
    ((handleConnection ⟨[], []⟩ 1 (some "tok") c7badVerify "B").2 =
      [MEvent.recoveryFailed "signature verification failed",
       MEvent.stateRestoreFailedOn "B" "signature verification failed",
       MEvent.starlingNew "B"]
    ∧ lookupA (handleConnection ⟨[], []⟩ 1 (some "tok") c7badVerify
        "B").1.connections 1 = some "B"
    ∧ lookupA (handleConnection ⟨[], []⟩ 1 (some "tok") c7badVerify
        "B").1.starlingsById "B" = some "B")
  ∧ ((handleConnection ⟨[], []⟩ 1 (some "tok") c7verify "B").2.any
      isRecoveryFailedEv = false
    ∧ lookupA (handleConnection ⟨[], []⟩ 1 (some "tok") c7verify
        "B").1.connections 1 = some "B"
    ∧ lookupA (handleConnection ⟨[], []⟩ 1 (some "tok") c7verify
        "B").1.starlingsById "B" = some "B"
    ∧ MEvent.stateRestoreFailedOn "B" "Token starling ID mismatch" ∈
        (handleConnection ⟨[], []⟩ 1 (some "tok") c7verify "B").2) :=
  ⟨(handleConnection_recovery_soft ⟨[], []⟩ 1 "tok"
      "signature verification failed" "B" c7badVerify).1 rfl,
   (handleConnection_recovery_soft ⟨[], []⟩ 1 "tok"
      "signature verification failed" "B" c7verify).2
      ⟨"A", [("connection", "x")], 0⟩ rfl rfl (by decide)⟩

/-- A proxy state with one Pending Proxy Request under correlation id 5. -/
def c4St : PMState :=
  ⟨none, ⟨0, 0, 0, 0, 0, 0, []⟩, [(5, ⟨"src", 0⟩)], [], []⟩

/-- The response carrying correlation id 5. -/
def c4Resp : PMessage := ⟨.response, 5, "r"⟩

theorem proxy_response_exactly_once_witness :
    (handleProxyResponse c4St (fun _ => true) (fun _ => none) c4Resp).2 =
      .ok ()
  ∧ (handleProxyResponse
      (handleProxyResponse c4St (fun _ => true) (fun _ => none) c4Resp).1
      (fun _ => true) (fun _ => none) c4Resp).2 =
      .error "Unknown proxy response"
  ∧ (handleProxyResponse c4St (fun _ => true) (fun _ => some "ws closed")
      c4Resp).2 = .error "ws closed"
  ∧ (handleProxyResponse c4St (fun _ => true) (fun _ => some "ws closed")
      c4Resp).1.metrics.successfulProxies = c4St.metrics.successfulProxies
  ∧ (proxyTimeoutFire c4St 5).events = PEvent.proxyTimeout 5 :: c4St.events :=
  have h := proxy_response_exactly_once c4St (fun _ => true) (fun _ => none)
    c4Resp ⟨"src", 0⟩ rfl
  have h2 := proxy_response_exactly_once c4St (fun _ => true)
    (fun _ => some "ws closed") c4Resp ⟨"src", 0⟩ rfl
  ⟨(h.1 rfl rfl).1, h.2.2.2.2.1, (h2.2.1 "ws closed" rfl rfl).1,
   (h2.2.1 "ws closed" rfl rfl).2, h.2.2.2.2.2.1⟩

/-- An engine with no rule configured. -/
def c10St : PMState := ⟨none, ⟨0, 0, 0, 0, 0, 0, []⟩, [], [], []⟩

/-- A rule resolving every message to target "t", with default options. -/
def c10Rule : ProxyRule := ⟨fun _ _ => .ok (some "t"), ⟨true, true, 30000⟩⟩

/-- An engine with `c10Rule` active. -/
def c10St2 : PMState :=
  ⟨some c10Rule, ⟨0, 0, 0, 0, 0, 0, []⟩, [], [], []⟩

/-- A request to be proxied. -/
def c10Msg : PMessage := ⟨.request, 1, "m"⟩

/-- Registry in which every peer id is known. -/
def c10Reg : String → Bool := fun _ => true

/-- Transport on which every send succeeds. -/
def c10Send : String → Option String := fun _ => none

theorem handleProxy_balanced_witness :
    ((handleProxy c10St c10Reg c10Send c10Msg "s" 0 0).1.metrics.activeProxies
      = c10St.metrics.activeProxies)
  ∧ (∃ e, (handleProxy c10St c10Reg c10Send c10Msg "s" 0 0).1.events =
      PEvent.proxyError e :: c10St.events)
  ∧ ((handleProxy c10St2 c10Reg c10Send c10Msg "s" 0 0).1.events =
      c10St2.events
    ∧ ∃ t, (handleProxy c10St2 c10Reg c10Send c10Msg "s" 0 0).1.sends =
        Sent.forwarded t (enrichMessage c10Msg "s" 0) :: c10St2.sends) :=
  ⟨(handleProxy_balanced c10St c10Reg c10Send c10Msg "s" 0 0).1,
   (handleProxy_balanced c10St c10Reg c10Send c10Msg "s" 0 0).2.2.1 rfl,
   (handleProxy_balanced c10St2 c10Reg c10Send c10Msg "s" 0 0).2.2.2 rfl⟩

end Helios
